import Mathlib

/-!
Verification of the job-posting normalization pipeline implemented in
`job_processor.py` (class `JobProcessor`).

The Python source is shallowly embedded: every helper of the pipeline
(`_clean_text`, `_parse_salary`, `_generate_summary`, `_extract_requirements`,
`_generate_job_id`, `_calculate_relevance`, `_verify_remote_status`,
`_should_include_job`, `_process_single_job`, `process_jobs`) is translated
into an executable Lean function.  Python strings are modelled as `String`
(lists of characters); the ASCII fragment of `str.lower`, `str.strip`,
`str.split` and the `re` patterns actually used by the source is modelled
exactly.  Python `float` arithmetic in the relevance score is modelled by
exact rationals (`ℚ`); the only operations involved are sums of the literals
0.5, 0.3, 0.2 scaled by ratios of small naturals, and a final `min` with 1.0,
so the bound/branching structure is unaffected by rounding.  A Python
exception is modelled by `Option.none`: the fallible operations in the
pipeline are the division by `len(search_words)` in `_calculate_relevance`
(`ZeroDivisionError` on a nonempty whitespace-only search term) and
`urllib.parse.urlparse` inside `_generate_job_id` (`ValueError` on a
bracket-mismatched authority such as `http://[`).
`datetime.now().isoformat()` is modelled by an explicit `now : String`
parameter.  `hashlib.md5(...).hexdigest()[:16]` is modelled by a
deterministic executable 64-bit digest rendered as 16 hex characters
(FNV-1a); the pipeline and the claims use only that the digest is a
deterministic function of its input string.
-/

namespace JobProcessor

/-- The ASCII whitespace characters recognised by Python `\s` and `str.strip`. -/
def isWsCh (c : Char) : Bool :=
  c = ' ' || c = '\t' || c = '\n' || c = '\x0d' || c = '\x0b' || c = '\x0c'

/-- ASCII decimal digit, as in `\d` and `str.isdigit` on ASCII input. -/
def isDigitCh (c : Char) : Bool :=
  '0' ≤ c && c ≤ '9'

/-- ASCII letter, as in the `[a-zA-Z]` character class. -/
def isAsciiLetter (c : Char) : Bool :=
  ('a' ≤ c && c ≤ 'z') || ('A' ≤ c && c ≤ 'Z')

/-- Model of Python `str.lower` on a character (ASCII case fold). -/
def lowerCh (c : Char) : Char := c.toLower

/-- Model of Python `str.lower` on a string. -/
def lowerStr (s : String) : String := ⟨s.data.map lowerCh⟩

/-- `needle` is an initial segment of `hay`. -/
def listStarts : List Char → List Char → Bool
  | [], _ => true
  | _ :: _, [] => false
  | a :: as_, b :: bs => a == b && listStarts as_ bs

/-- Model of Python substring containment `needle in hay` on char lists. -/
def occursInL (hay needle : List Char) : Bool :=
  match hay with
  | [] => listStarts needle []
  | _ :: t => listStarts needle hay || occursInL t needle

/-- Model of Python substring containment `needle in hay` on strings. -/
def strContains (hay needle : String) : Bool :=
  occursInL hay.data needle.data

/-- Accumulator pass of whitespace splitting (Python `str.split()` with no
separator: split on whitespace runs, dropping empty tokens). -/
def wsSplitAux : List Char → List Char → List (List Char)
  | [], cur => if cur.isEmpty then [] else [cur.reverse]
  | c :: rest, cur =>
    if isWsCh c then
      if cur.isEmpty then wsSplitAux rest [] else cur.reverse :: wsSplitAux rest []
    else wsSplitAux rest (c :: cur)

/-- Model of Python `str.split()` (no separator). -/
def wsSplit (s : List Char) : List (List Char) := wsSplitAux s []

/-- Split a char list at every occurrence of separator `sep`, keeping empty
pieces — Python `str.split(sep)` for a single-character separator. -/
def splitOnCh (sep : Char) : List Char → List (List Char)
  | [] => [[]]
  | c :: rest =>
    let r := splitOnCh sep rest
    if c = sep then [] :: r
    else
      match r with
      | [] => [[c]]
      | piece :: more => (c :: piece) :: more

/-- Model of Python `str.strip()`: drop leading and trailing whitespace. -/
def stripL (s : List Char) : List Char :=
  ((s.dropWhile (fun c => isWsCh c)).reverse.dropWhile (fun c => isWsCh c)).reverse

/-- Model of Python `str.strip()` on strings. -/
def stripStr (s : String) : String := ⟨stripL s.data⟩

/-- State-machine pass of whitespace collapsing: the flag records whether the
previous character was whitespace (i.e. we are inside a run already emitted). -/
def collapseWsAux : List Char → Bool → List Char
  | [], _ => []
  | c :: rest, inWs =>
    if isWsCh c then
      if inWs then collapseWsAux rest true
      else ' ' :: collapseWsAux rest true
    else c :: collapseWsAux rest false

/-- Model of `re.sub(r'\s+', ' ', text)`: collapse every whitespace run to a
single space. -/
def collapseWs (s : List Char) : List Char := collapseWsAux s false

/-- Try to match `&[a-zA-Z]+;` at the head of `s`; on success return the
suffix after the match.  The letter class excludes `;`, so taking the maximal
letter run and then requiring `;` is exactly the regex semantics. -/
def matchEntity (s : List Char) : Option (List Char) :=
  match s with
  | '&' :: rest =>
    match rest.dropWhile (fun x => isAsciiLetter x) with
    | ';' :: tail =>
      if (rest.takeWhile (fun x => isAsciiLetter x)).isEmpty then none
      else some tail
    | _ => none
  | _ => none

/-- Try to match `<[^>]+>` at the head of `s`; on success return the suffix
after the match.  The class excludes `>`, so maximal-run-then-`>` is exact. -/
def matchTag (s : List Char) : Option (List Char) :=
  match s with
  | '<' :: rest =>
    match rest.dropWhile (fun x => x ≠ '>') with
    | '>' :: tail =>
      if (rest.takeWhile (fun x => x ≠ '>')).isEmpty then none
      else some tail
    | _ => none
  | _ => none

/-- Left-to-right, non-overlapping substitution scan of `re.sub` for a
head-matcher that always consumes at least one character.  The fuel is an
upper bound on the number of characters processed; each step consumes at
least one character, so fuel `s.length` makes the bound unreachable. -/
def subScanF (m : List Char → Option (List Char)) : Nat → List Char → List Char
  | 0, s => s
  | fuel + 1, s =>
    match s with
    | [] => []
    | c :: rest =>
      match m (c :: rest) with
      | some tail => ' ' :: subScanF m fuel tail
      | none => c :: subScanF m fuel rest

/-- Model of `re.sub(r'&[a-zA-Z]+;', ' ', text)`. -/
def subEntities (s : List Char) : List Char := subScanF matchEntity s.length s

/-- Model of `re.sub(r'<[^>]+>', ' ', text)`. -/
def subTags (s : List Char) : List Char := subScanF matchTag s.length s

/-- Embedding of `JobProcessor._clean_text`: collapse whitespace, strip, then
remove HTML entities and tags (each replaced by a space, in that order). -/
def clean_text (text : String) : String :=
  if text = "" then ""
  else
    let t1 := collapseWs text.data
    let t2 := stripL t1
    let t3 := subEntities t2
    let t4 := subTags t3
    ⟨t4⟩

/-!
### A small backtracking regex model

The `re` patterns used by `_parse_salary` and `_extract_requirements` are
built from literals, character classes, capture groups, greedy `*`, `+`,
`?`, `{m,n}` and non-capturing alternation, compiled with `re.IGNORECASE`.
A pattern is embedded as a nondeterministic parser returning every way to
match a prefix of the input, in exactly the priority order that a
backtracking engine explores them (greedy quantifiers: longer first;
alternation: left first).  The overall match at a position is the first
entry of that list, and `re.finditer` is the usual leftmost non-overlapping
scan. -/

/-- One parse alternative: consumed characters, captured groups (in order of
opening parenthesis; the patterns used here have no nested capture groups),
and the remaining input. -/
abbrev RAlt := List Char × List (List Char) × List Char

/-- A nondeterministic pattern: every prefix match, in backtracking order. -/
abbrev RPat := List Char → List RAlt

/-- The empty pattern. -/
def rEps : RPat := fun s => [([], [], s)]

/-- A single-character class. -/
def rCh (p : Char → Bool) : RPat := fun s =>
  match s with
  | [] => []
  | c :: rest => if p c then [([c], [], rest)] else []

/-- Sequencing; alternatives of the head are explored before moving on, as
in a backtracking engine. -/
def rSeq (a b : RPat) : RPat := fun s =>
  (a s).flatMap fun alt1 =>
    (b alt1.2.2).map fun alt2 =>
      (alt1.1 ++ alt2.1, alt1.2.1 ++ alt2.2.1, alt2.2.2)

/-- Left-preferring alternation `(?:a|b)`. -/
def rOr (a b : RPat) : RPat := fun s => a s ++ b s

/-- Greedy option `a?`: the present alternative is explored first. -/
def rOpt (a : RPat) : RPat := fun s => a s ++ [([], [], s)]

/-- A capture group around `a`. -/
def rGrp (a : RPat) : RPat := fun s =>
  (a s).map fun alt => (alt.1, alt.2.1 ++ [alt.1], alt.2.2)

/-- Greedy repetition of at most `n` copies of `a`, longest first. -/
def rRepMax (a : RPat) : Nat → RPat
  | 0 => rEps
  | n + 1 => rOr (rSeq a (rRepMax a n)) rEps

/-- Exactly `n` copies of `a`. -/
def rRepExact (a : RPat) : Nat → RPat
  | 0 => rEps
  | n + 1 => rSeq a (rRepExact a n)

/-- Greedy bounded repetition `a{lo,hi}` (for `hi ≥ lo`). -/
def rRepRange (a : RPat) (lo hi : Nat) : RPat :=
  rSeq (rRepExact a lo) (rRepMax a (hi - lo))

/-- Greedy unbounded `a*`.  Every `*`/`+` body in the embedded patterns
consumes at least one character, so `s.length` iterations are an upper
bound and the fuelled repetition is exact. -/
def rStar (a : RPat) : RPat := fun s => rRepMax a s.length s

/-- Greedy `a+`. -/
def rPlus (a : RPat) : RPat := rSeq a (rStar a)

/-- A literal character under `re.IGNORECASE` (ASCII case fold). -/
def rChCI (c : Char) : RPat := rCh (fun x => lowerCh x = lowerCh c)

/-- A literal word under `re.IGNORECASE`. -/
def rLitCI (w : String) : RPat :=
  w.data.foldr (fun c acc => rSeq (rChCI c) acc) rEps

/-- The first (highest-priority) match of pattern `p` at the start of `s` —
what the backtracking engine returns at a fixed position. -/
def rFirst (p : RPat) (s : List Char) : Option RAlt := (p s).head?

/-- The scan step of `re.finditer` with explicit fuel: at each position try
the pattern; on a match emit it and resume after the consumed text (after
one character for an empty match, as Python does); otherwise slide one
character.  Each step consumes at least one character of the remaining
input, so fuel `s.length + 1` is exact. -/
def findIterF (p : RPat) : Nat → List Char → List (List Char × List (List Char))
  | 0, _ => []
  | _ + 1, [] =>
    match rFirst p [] with
    | some alt => [(alt.1, alt.2.1)]
    | none => []
  | fuel + 1, c :: rest =>
    match rFirst p (c :: rest) with
    | some alt =>
      match alt.1 with
      | [] => (alt.1, alt.2.1) :: findIterF p fuel rest
      | _ :: _ => (alt.1, alt.2.1) :: findIterF p fuel alt.2.2
    | none => findIterF p fuel rest

/-- Model of `re.finditer(pattern, s)`: the list of (whole match, groups). -/
def findIter (p : RPat) (s : List Char) : List (List Char × List (List Char)) :=
  findIterF p (s.length + 1) s

/-- First result of `f` over a list, scanning left to right. -/
def firstSome {α β : Type} (f : α → Option β) : List α → Option β
  | [] => none
  | x :: xs =>
    match f x with
    | some b => some b
    | none => firstSome f xs

/-!
### Salary parsing (`_parse_salary`)
-/

/-- `\d{1,3}(?:,\d{3})*` — a comma-grouped number. -/
def rNum : RPat :=
  rSeq (rRepRange (rCh isDigitCh) 1 3)
    (rStar (rSeq (rCh (fun c => c = ',')) (rRepExact (rCh isDigitCh) 3)))

/-- `(?:\.\d{2})?` — an optional cents part. -/
def rDec : RPat := rOpt (rSeq (rCh (fun c => c = '.')) (rRepExact (rCh isDigitCh) 2))

/-- `\s*`. -/
def rWs : RPat := rStar (rCh isWsCh)

/-- `\s+`. -/
def rWsPlus : RPat := rPlus (rCh isWsCh)

/-- The `[-–—to]+` separator class (IGNORECASE adds `T`/`O`). -/
def rDashTo : RPat :=
  rPlus (rCh (fun c => c = '-' || c = '–' || c = '—' || lowerCh c = 't' || lowerCh c = 'o'))

/-- The single-character `[-–—]` separator class. -/
def rDashOnly : RPat := rCh (fun c => c = '-' || c = '–' || c = '—')

/-- `\$`. -/
def rDollar : RPat := rCh (fun c => c = '$')

/-- `(?:USD|dollars?|per\s+year|annually)`. -/
def rAnnualWord : RPat :=
  rOr (rLitCI "USD")
    (rOr (rSeq (rLitCI "dollar") (rOpt (rChCI 's')))
      (rOr (rSeq (rLitCI "per") (rSeq rWsPlus (rLitCI "year")))
        (rLitCI "annually")))

/-- `(?:per\s+year|annually|/year|yr)`. -/
def rPerYearWord : RPat :=
  rOr (rSeq (rLitCI "per") (rSeq rWsPlus (rLitCI "year")))
    (rOr (rLitCI "annually")
      (rOr (rSeq (rCh (fun c => c = '/')) (rLitCI "year"))
        (rLitCI "yr")))

/-- `\$(\d{1,3}(?:,\d{3})*(?:\.\d{2})?)\s*[-–—to]+\s*\$?(\d{1,3}(?:,\d{3})*(?:\.\d{2})?)`. -/
def salaryPat1 : RPat :=
  rSeq rDollar (rSeq (rGrp (rSeq rNum rDec))
    (rSeq rWs (rSeq rDashTo (rSeq rWs (rSeq (rOpt rDollar) (rGrp (rSeq rNum rDec)))))))

/-- `\$(\d{1,3}(?:,\d{3})*)\s*[-–—]\s*(\d{1,3}(?:,\d{3})*)`. -/
def salaryPat2 : RPat :=
  rSeq rDollar (rSeq (rGrp rNum) (rSeq rWs (rSeq rDashOnly (rSeq rWs (rGrp rNum)))))

/-- `(\d{1,3}(?:,\d{3})*)\s*[-–—to]+\s*(\d{1,3}(?:,\d{3})*)\s*(?:USD|dollars?|per\s+year|annually)`. -/
def salaryPat3 : RPat :=
  rSeq (rGrp rNum) (rSeq rWs (rSeq rDashTo (rSeq rWs (rSeq (rGrp rNum) (rSeq rWs rAnnualWord)))))

/-- `\$(\d{1,3}(?:,\d{3})*(?:\.\d{2})?)\s*(?:per\s+year|annually|/year|yr)`. -/
def salaryPat4 : RPat :=
  rSeq rDollar (rSeq (rGrp (rSeq rNum rDec)) (rSeq rWs rPerYearWord))

/-- `(\d{1,3}(?:,\d{3})*)\s*k\s*[-–—to]+\s*(\d{1,3}(?:,\d{3})*)\s*k`. -/
def salaryPat5 : RPat :=
  rSeq (rGrp rNum) (rSeq rWs (rSeq (rChCI 'k')
    (rSeq rWs (rSeq rDashTo (rSeq rWs (rSeq (rGrp rNum) (rSeq rWs (rChCI 'k'))))))))

/-- The `salary_patterns` list, in source order. -/
def salary_patterns : List RPat :=
  [salaryPat1, salaryPat2, salaryPat3, salaryPat4, salaryPat5]

/-- Model of `int(g.replace(',', '').replace('.', ''))`: `none` models the
`ValueError` that the source catches with `continue`. -/
def intOfGroup (g : List Char) : Option Int :=
  let digits := g.filter (fun c => c ≠ ',' && c ≠ '.')
  if digits.isEmpty || !digits.all (fun c => isDigitCh c) then none
  else some (Int.ofNat (digits.foldl (fun acc c => acc * 10 + (c.toNat - '0'.toNat)) 0))

/-- The body of the inner `for match in matches` loop of `_parse_salary`:
process one regex match, returning the accepted range if its guard passes. -/
def salaryOfMatch (m : List Char × List (List Char)) : Option (Int × Int) :=
  let hasK := m.1.any (fun c => lowerCh c = 'k')
  match m.2 with
  | [g1, g2] =>
    match intOfGroup g1, intOfGroup g2 with
    | some a, some b =>
      let min_sal := if hasK then a * 1000 else a
      let max_sal := if hasK then b * 1000 else b
      if 10000 ≤ min_sal && min_sal ≤ 1000000 && 10000 ≤ max_sal && max_sal ≤ 1000000 then
        some (min_sal, max_sal)
      else none
    | _, _ => none
  | [g1] =>
    match intOfGroup g1 with
    | some a =>
      let salary := if hasK then a * 1000 else a
      if 10000 ≤ salary && salary ≤ 1000000 then some (salary, salary) else none
    | none => none
  | _ => none

/-- Embedding of `JobProcessor._parse_salary`. -/
def parse_salary (text : String) : Option Int × Option Int :=
  if text = "" then (none, none)
  else
    match firstSome (fun p => firstSome salaryOfMatch (findIter p text.data)) salary_patterns with
    | some r => (some r.1, some r.2)
    | none => (none, none)

/-!
### Summary generation (`_generate_summary`)
-/

/-- Model of `re.split(r'[.!?]+', description)`: pieces between maximal runs
of sentence terminators. -/
def splitSentences (s : List Char) : List (List Char) :=
  match s with
  | [] => [[]]
  | c :: rest =>
    let r := splitSentences rest
    if c = '.' || c = '!' || c = '?' then
      match rest with
      | [] => [] :: r
      | c2 :: _ =>
        if c2 = '.' || c2 = '!' || c2 = '?' then r
        else [] :: r
    else
      match r with
      | [] => [[c]]
      | piece :: more => (c :: piece) :: more

/-- The `important_keywords` vocabulary of `_generate_summary`. -/
def important_keywords : List String :=
  ["responsible", "role", "position", "seeking", "looking", "opportunity",
   "experience", "skills", "requirements", "qualifications", "team"]

/-- Model of `' '.join(parts)`. -/
def joinSp : List String → String
  | [] => ""
  | [x] => x
  | x :: y :: rest => x ++ " " ++ joinSp (y :: rest)

/-- Model of `'; '.join(parts)`. -/
def joinSemi : List String → String
  | [] => ""
  | [x] => x
  | x :: y :: rest => x ++ "; " ++ joinSemi (y :: rest)

/-- The sentence-accumulation loop of `_generate_summary`: keyword sentences
are always kept, a first long sentence is kept as fallback, and the loop
breaks once the joined summary exceeds the budget. -/
def summaryLoop (maxLen : Nat) : List (List Char) → List String → List String
  | [], acc => acc
  | sent :: rest, acc =>
    let s := stripL sent
    if !s.isEmpty && s.length > 20 then
      let acc' :=
        if important_keywords.any (fun kw => occursInL (s.map lowerCh) kw.data) then
          acc ++ [⟨s⟩]
        else if acc.isEmpty then acc ++ [⟨s⟩]
        else acc
      if (joinSp acc').length > maxLen then acc'
      else summaryLoop maxLen rest acc'
    else summaryLoop maxLen rest acc

/-- Model of `summary[:maxLen].rsplit(' ', 1)[0] + '...'`. -/
def truncAtWord (maxLen : Nat) (s : String) : String :=
  let cut := s.data.take maxLen
  if cut.contains ' ' then ⟨(cut.reverse.dropWhile (fun c => c ≠ ' ')).tail.reverse⟩ ++ "..."
  else ⟨cut⟩ ++ "..."

/-- Embedding of `JobProcessor._generate_summary`. -/
def generate_summary (maxLen : Nat) (description : String) : String :=
  if description = "" then ""
  else
    let sentences := splitSentences description.data
    let chosen := summaryLoop maxLen (sentences.take 5) []
    let summary := joinSp chosen
    if summary.length > maxLen then truncAtWord maxLen summary
    else summary

/-!
### Requirements extraction (`_extract_requirements`)
-/

/-- The `[:\-\s]*` separator class. -/
def rColonDashWs : RPat := rStar (rCh (fun c => c = ':' || c = '-' || isWsCh c))

/-- `([^.]*(?:\.[^.]*){0,k})` — the captured context: up to `k` further
sentences.  `re.DOTALL` is irrelevant: the pattern uses classes, not `.`. -/
def rReqBody (k : Nat) : RPat :=
  rGrp (rSeq (rStar (rCh (fun c => c ≠ '.')))
    (rRepMax (rSeq (rCh (fun c => c = '.')) (rStar (rCh (fun c => c ≠ '.')))) k))

/-- `(?:requirements?|qualifications?|skills?)[:\-\s]*([^.]*(?:\.[^.]*){0,3})`. -/
def reqPat1 : RPat :=
  rSeq (rOr (rSeq (rLitCI "requirement") (rOpt (rChCI 's')))
      (rOr (rSeq (rLitCI "qualification") (rOpt (rChCI 's')))
        (rSeq (rLitCI "skill") (rOpt (rChCI 's')))))
    (rSeq rColonDashWs (rReqBody 3))

/-- `(?:you\s+(?:will\s+)?(?:need|have|bring))[:\-\s]*([^.]*(?:\.[^.]*){0,2})`. -/
def reqPat2 : RPat :=
  rSeq (rSeq (rLitCI "you") (rSeq rWsPlus
      (rSeq (rOpt (rSeq (rLitCI "will") rWsPlus))
        (rOr (rLitCI "need") (rOr (rLitCI "have") (rLitCI "bring"))))))
    (rSeq rColonDashWs (rReqBody 2))

/-- `(?:must\s+have|required)[:\-\s]*([^.]*(?:\.[^.]*){0,2})`. -/
def reqPat3 : RPat :=
  rSeq (rOr (rSeq (rLitCI "must") (rSeq rWsPlus (rLitCI "have"))) (rLitCI "required"))
    (rSeq rColonDashWs (rReqBody 2))

/-- The `req_patterns` list, in source order. -/
def req_patterns : List RPat := [reqPat1, reqPat2, reqPat3]

/-- Embedding of `JobProcessor._extract_requirements`. -/
def extract_requirements (description : String) : String :=
  if description = "" then ""
  else
    let collected := req_patterns.flatMap fun p =>
      (findIter p description.data).filterMap fun m =>
        match m.2.head? with
        | some g =>
          let t := stripL g
          if !t.isEmpty && t.length > 10 then some (⟨t⟩ : String) else none
        | none => none
    joinSemi (collected.take 3)

/-!
### Identity resolution (`_generate_job_id`)
-/

/-- The components of `urllib.parse.urlparse` used by the source. -/
structure UrlParts where
  netloc : String
  path : String
  query : String
deriving DecidableEq

/-- Characters allowed in a URL scheme (`letters digits + - .`). -/
def isSchemeCh (c : Char) : Bool :=
  isAsciiLetter c || isDigitCh c || c = '+' || c = '-' || c = '.'

/-- Model of `urllib.parse.urlparse` restricted to the fields the source
reads (netloc, path, query).  Follows the stdlib's splitting order: strip a
`scheme:` prefix, read a `//netloc` delimited by `/?#`, strip a `#fragment`,
then split the `?query`.  `none` models the `ValueError("Invalid IPv6 URL")`
that `urlsplit` raises when the authority contains `[` without `]` or `]`
without `[` (e.g. `http://[`) — a real exception path of
`_generate_job_id`.  Percent-escapes are not decoded (the source never
decodes them either; `parse_qs` unquoting is modelled as the identity, which
is exact for the escape-free URLs considered here), and the bracketed-host
content validation some newer interpreters add is outside the modelled
fragment — no claim concerns bracketed hosts. -/
def urlparse (url : String) : Option UrlParts :=
  let s := url.data
  let afterScheme :=
    match s.findIdx? (fun c => c = ':') with
    | some i =>
      if i > 0 && (s.take i).all (fun c => isSchemeCh c) then s.drop (i + 1) else s
    | none => s
  let (netloc, afterNetloc) :=
    match afterScheme with
    | '/' :: '/' :: rest =>
      (rest.takeWhile (fun c => c ≠ '/' && c ≠ '?' && c ≠ '#'),
       rest.dropWhile (fun c => c ≠ '/' && c ≠ '?' && c ≠ '#'))
    | other => ([], other)
  if (netloc.contains '[' && !netloc.contains ']') ||
      (netloc.contains ']' && !netloc.contains '[') then none
  else
    let beforeFrag := afterNetloc.takeWhile (fun c => c ≠ '#')
    let path := beforeFrag.takeWhile (fun c => c ≠ '?')
    let query :=
      match beforeFrag.dropWhile (fun c => c ≠ '?') with
      | '?' :: q => q
      | _ => []
    some ⟨⟨netloc⟩, ⟨path⟩, ⟨query⟩⟩

/-- Model of `urllib.parse.parse_qs` with its defaults
(`keep_blank_values=False`): split the query on `&`, split each field at its
first `=`, and drop fields whose value is empty (including fields with no
`=`).  Returns the pairs in order; `parse_qs(q)[k][0]` is the value of the
first pair with key `k`. -/
def parse_qs_pairs (query : String) : List (String × String) :=
  (splitOnCh '&' query.data).filterMap fun field =>
    let key := field.takeWhile (fun c => c ≠ '=')
    let val :=
      match field.dropWhile (fun c => c ≠ '=') with
      | '=' :: v => v
      | _ => []
    if val.isEmpty then none else some ((⟨key⟩ : String), (⟨val⟩ : String))

/-- `parse_qs(query)[param][0]` when `param in parse_qs(query)`. -/
def qsLookup (query : String) (param : String) : Option String :=
  firstSome (fun kv => if kv.1 = param then some kv.2 else none) (parse_qs_pairs query)

/-- Model of Python `str.isdigit` (ASCII): nonempty and all digits. -/
def pyIsDigit (s : String) : Bool :=
  !s.data.isEmpty && s.data.all (fun c => isDigitCh c)

/-- The URL-identifier search of `_generate_job_id` on an already-parsed
URL: query parameters `id`, `job_id`, `jobId`, `posting_id` in priority
order, then the path segments scanned from the end for an all-digit or
longer-than-10 segment. -/
def extract_url_id (pu : UrlParts) : Option String :=
  match firstSome (fun p => qsLookup pu.query p) ["id", "job_id", "jobId", "posting_id"] with
  | some v => some v
  | none =>
    firstSome
      (fun part => if part ≠ "" && (pyIsDigit part || part.length > 10) then some part else none)
      ((splitOnCh '/' pu.path.data).map (fun p => (⟨p⟩ : String))).reverse

/-- One FNV-1a 64-bit step. -/
def fnvStep (h : Nat) (byte : Nat) : Nat :=
  ((h ^^^ byte) * 1099511628211) % 18446744073709551616

/-- Hex digit for a value below 16. -/
def hexDigit (n : Nat) : Char :=
  if n < 10 then Char.ofNat ('0'.toNat + n)
  else Char.ofNat ('a'.toNat + (n - 10))

/-- Render `n` as `k` hex digits (most significant first). -/
def toHex : Nat → Nat → List Char
  | 0, _ => []
  | k + 1, n => toHex k (n / 16) ++ [hexDigit (n % 16)]

/-- Model of `hashlib.md5(s.encode()).hexdigest()[:16]`: a deterministic
64-bit digest of the string rendered as 16 hex characters (FNV-1a over the
character codes).  The source — and every claim about it — relies only on
the digest being a deterministic, stable function of the input string, not
on the MD5 algorithm itself. -/
def digest16 (s : String) : String :=
  ⟨toHex 16 (s.data.foldl (fun h c => fnvStep h c.toNat) 14695981039346656037)⟩

/-- Model of `str.replace(' ', '_')`. -/
def spaceToUnderscore (s : String) : String :=
  ⟨s.data.map (fun c => if c = ' ' then '_' else c)⟩

/-- Embedding of `JobProcessor._generate_job_id`.  `none` models the
`ValueError` that `urlparse(url)` raises on a malformed authority; it
propagates to the caller (`_process_single_job` catches it). -/
def generate_job_id (title company url : String) : Option String :=
  if url ≠ "" then
    match urlparse url with
    | none => none
    | some pu =>
      match extract_url_id pu with
      | some jid => some (digest16 (pu.netloc ++ "_" ++ jid))
      | none => some (digest16 (spaceToUnderscore (lowerStr title ++ "_" ++ lowerStr company)))
  else some (digest16 (spaceToUnderscore (lowerStr title ++ "_" ++ lowerStr company)))

/-!
### Data model and pipeline
-/

/-- A raw posting: the keys of the input dict that the source reads, each
optional (`none` models an absent key; `raw_job.get(k, d)` is `getD d`). -/
structure RawJob where
  title : Option String := none
  company : Option String := none
  url : Option String := none
  location : Option String := none
  description : Option String := none
  snippet : Option String := none
  salary : Option String := none
  source_site : Option String := none
  search_term : Option String := none
  posting_date : Option String := none
  found_date : Option String := none
deriving DecidableEq

/-- The `ProcessedJob` dataclass.  `relevance_score` (a Python float) is
modelled as an exact rational. -/
structure ProcessedJob where
  id : String
  title : String
  company : String
  url : String
  location : String
  salary : String
  salary_min : Option Int
  salary_max : Option Int
  description : String
  summary : String
  requirements : String
  source_site : String
  search_term : String
  posting_date : String
  found_date : String
  is_remote : Bool
  relevance_score : ℚ
deriving DecidableEq

/-- The `FilterSettings` slice of the configuration (config.py lowercases
`exclude_keywords` and `exclude_experience_levels` when loading). -/
structure FilterSettings where
  exclude_keywords : List String
  salary_minimum : Int
  salary_maximum : Int
  exclude_experience_levels : List String
deriving DecidableEq

/-- The configuration fields the processor reads: `config.filters` and
`config.output.max_summary_length`. -/
structure Config where
  filters : FilterSettings
  max_summary_length : Nat
deriving DecidableEq

/-- Embedding of `JobProcessor._calculate_relevance`.  `none` models the
`ZeroDivisionError` raised when the search term is nonempty but has no
whitespace-separated words; Python float arithmetic is modelled exactly in
`ℚ` (the literals 0.5, 0.3, 0.2 and ratios of small naturals). -/
def calculate_relevance (raw : RawJob) (title description : String) : Option ℚ :=
  let search_term := lowerStr (raw.search_term.getD "")
  if search_term = "" then some (1 / 2)
  else
    let text_to_search := lowerStr (title ++ " " ++ description)
    let score1 : ℚ := if strContains (lowerStr title) search_term then 1 / 2 else 0
    let search_words := wsSplit search_term.data
    let title_words := wsSplit (lowerStr title).data
    let title_matches := (search_words.filter (fun w => title_words.contains w)).length
    let desc_matches := (search_words.filter (fun w => occursInL text_to_search.data w)).length
    if search_words.length = 0 then none
    else
      let n : ℚ := (search_words.length : ℚ)
      let score := score1 + ((title_matches : ℚ) / n) * (3 / 10) + ((desc_matches : ℚ) / n) * (1 / 5)
      some (min score 1)

/-- The `remote_indicators` list of `_verify_remote_status`. -/
def remote_indicators : List String :=
  ["remote", "telecommute", "work from home", "wfh", "distributed",
   "virtual", "anywhere", "location independent"]

/-- The `non_remote_indicators` list of `_verify_remote_status`. -/
def non_remote_indicators : List String :=
  ["hybrid", "on-site", "in-person", "office", "local", "commute",
   "relocation", "visa sponsorship"]

/-- Embedding of `JobProcessor._verify_remote_status`. -/
def verify_remote_status (title description location : String) : Bool :=
  let text_to_check := lowerStr (title ++ " " ++ description ++ " " ++ location)
  remote_indicators.any (fun ind => strContains text_to_check ind) &&
    !(non_remote_indicators.any (fun ind => strContains text_to_check ind))

/-- Python truthiness of an `Optional[int]` field: `None` and `0` are falsy. -/
def optIntTruthy : Option Int → Bool
  | none => false
  | some n => n ≠ 0

/-- Embedding of `JobProcessor._should_include_job`: keyword exclusion,
experience-level exclusion, salary-band overlap (only when both bounds are
truthy), then the remote verdict, in source order with early return. -/
def should_include_job (cfg : Config) (job : ProcessedJob) : Bool :=
  let text_to_check := lowerStr (job.title ++ " " ++ job.description)
  if cfg.filters.exclude_keywords.any (fun kw => strContains text_to_check kw) then false
  else if cfg.filters.exclude_experience_levels.any (fun lv => strContains text_to_check lv) then
    false
  else if optIntTruthy job.salary_min && optIntTruthy job.salary_max then
    if job.salary_max.getD 0 < cfg.filters.salary_minimum ||
        job.salary_min.getD 0 > cfg.filters.salary_maximum then false
    else job.is_remote
  else job.is_remote

/-- The cleaned description field as `_process_single_job` computes it:
`self._clean_text(raw_job.get('description', '') or raw_job.get('snippet', ''))`
(the raw description falls back to the raw snippet before cleaning). -/
def jobDescription (raw : RawJob) : String :=
  clean_text (if raw.description.getD "" ≠ "" then raw.description.getD "" else raw.snippet.getD "")

/-- Embedding of `JobProcessor._process_single_job`.  `now` models
`datetime.now().isoformat()` (the default for a missing `found_date`); it
feeds only the `found_date` passthrough field.  `none` models the caught
per-record exception: the raising operations inside the source's `try` are
`urlparse` inside `_generate_job_id` (malformed authority) and the division
in `_calculate_relevance` (whitespace-only search term), in that source
order; the source's locals are inlined into the record fields. -/
def process_single_job (cfg : Config) (now : String) (raw : RawJob) : Option ProcessedJob :=
  match generate_job_id (clean_text (raw.title.getD ""))
      (clean_text (raw.company.getD "")) (raw.url.getD "") with
  | none => none
  | some job_id =>
    match calculate_relevance raw (clean_text (raw.title.getD "")) (jobDescription raw) with
    | none => none
    | some relevance_score =>
      some
        { id := job_id
          title := clean_text (raw.title.getD "")
          company := clean_text (raw.company.getD "")
          url := raw.url.getD ""
          location := clean_text (raw.location.getD "")
          salary := clean_text (raw.salary.getD "")
          salary_min := (parse_salary (clean_text (raw.salary.getD "") ++ " " ++ jobDescription raw)).1
          salary_max := (parse_salary (clean_text (raw.salary.getD "") ++ " " ++ jobDescription raw)).2
          description := jobDescription raw
          summary := generate_summary cfg.max_summary_length (jobDescription raw)
          requirements := extract_requirements (jobDescription raw)
          source_site := raw.source_site.getD ""
          search_term := raw.search_term.getD ""
          posting_date := raw.posting_date.getD ""
          found_date := raw.found_date.getD now
          is_remote := verify_remote_status (clean_text (raw.title.getD ""))
            (jobDescription raw) (clean_text (raw.location.getD ""))
          relevance_score := relevance_score }

/-- Embedding of `JobProcessor.process_jobs`, with the instance state
`self.seen_jobs` passed explicitly: returns the emitted jobs (in order) and
the final seen-set.  A failed record (`none`) is skipped; a job rejected by
the filter is skipped; a job whose id is already seen is skipped; an
emitted job's id is added to the seen-set. -/
def process_jobs (cfg : Config) (now : String) : List String → List RawJob →
    List ProcessedJob × List String
  | seen, [] => ([], seen)
  | seen, raw :: rest =>
    match process_single_job cfg now raw with
    | none => process_jobs cfg now seen rest
    | some job =>
      if should_include_job cfg job then
        if job.id ∈ seen then process_jobs cfg now seen rest
        else
          let r := process_jobs cfg now (job.id :: seen) rest
          (job :: r.1, r.2)
      else process_jobs cfg now seen rest

/-!
### Helper lemmas
-/

/-- A successful `firstSome` scan comes from some list element. -/
theorem firstSome_eq_some {α β : Type} {f : α → Option β} {l : List α} {b : β}
    (h : firstSome f l = some b) : ∃ x ∈ l, f x = some b := by
  induction l with
  | nil => simp [firstSome] at h
  | cons a as ih =>
    cases hfa : f a with
    | some v =>
      simp only [firstSome, hfa] at h
      exact ⟨a, by simp, by rw [hfa]; exact h⟩
    | none =>
      simp only [firstSome, hfa] at h
      obtain ⟨x, hx, hfx⟩ := ih h
      exact ⟨x, by simp [hx], hfx⟩

/-- Every range accepted by the inner loop of `_parse_salary` passed the
[10000, 1000000] validation guard on both endpoints. -/
theorem salaryOfMatch_band {m : List Char × List (List Char)} {r : Int × Int}
    (h : salaryOfMatch m = some r) :
    (10000 ≤ r.1 ∧ r.1 ≤ 1000000) ∧ (10000 ≤ r.2 ∧ r.2 ≤ 1000000) := by
  obtain ⟨r1, r2⟩ := r
  unfold salaryOfMatch at h
  split at h
  · -- two capture groups: the range branch
    split at h
    · simp only [Bool.and_eq_true, decide_eq_true_eq] at h
      split at h
      all_goals try split at h
      all_goals
        first
          | exact Option.noConfusion h
          | (simp only [Option.some.injEq, Prod.mk.injEq] at h
             obtain ⟨h1, h2⟩ := h
             subst h1
             subst h2
             omega)
    · exact Option.noConfusion h
  · -- one capture group: the single-amount branch
    split at h
    · simp only [Bool.and_eq_true, decide_eq_true_eq] at h
      split at h
      all_goals try split at h
      all_goals
        first
          | exact Option.noConfusion h
          | (simp only [Option.some.injEq, Prod.mk.injEq] at h
             obtain ⟨h1, h2⟩ := h
             subst h1
             subst h2
             omega)
    · exact Option.noConfusion h
  · exact Option.noConfusion h

/-- `_parse_salary` either finds nothing or returns a pair, and every
returned endpoint lies in the validation band. -/
theorem parse_salary_shape (text : String) :
    parse_salary text = (none, none) ∨
      ∃ a b, parse_salary text = (some a, some b) ∧
        (10000 ≤ a ∧ a ≤ 1000000) ∧ (10000 ≤ b ∧ b ≤ 1000000) := by
  unfold parse_salary
  split
  · exact Or.inl rfl
  · cases hscan : firstSome (fun p => firstSome salaryOfMatch (findIter p text.data))
        salary_patterns with
    | none => exact Or.inl rfl
    | some r =>
      right
      refine ⟨r.1, r.2, rfl, ?_⟩
      obtain ⟨p, _, hp⟩ := firstSome_eq_some hscan
      obtain ⟨m, _, hm⟩ := firstSome_eq_some hp
      exact salaryOfMatch_band hm

/-- When the search term is absent or empty, `_calculate_relevance` takes
the early `return 0.5` branch. -/
theorem calculate_relevance_of_empty_term (raw : RawJob) (title description : String)
    (h : raw.search_term.getD "" = "") :
    calculate_relevance raw title description = some (1 / 2) := by
  unfold calculate_relevance
  rw [h]
  rfl

/-- `str.lower` fixes a whitespace-only string. -/
theorem map_lowerCh_of_ws {l : List Char} (h : l.all isWsCh = true) :
    l.map lowerCh = l := by
  induction l with
  | nil => rfl
  | cons c rest ih =>
    simp only [List.all_cons, Bool.and_eq_true] at h
    have hc : lowerCh c = c := by
      have hw := h.1
      unfold isWsCh at hw
      simp only [Bool.or_eq_true, decide_eq_true_eq] at hw
      rcases hw with ((((hw | hw) | hw) | hw) | hw) | hw <;> subst hw <;> decide
    simp [hc, ih h.2]

/-- `str.split()` of a whitespace-only string is empty. -/
theorem wsSplitAux_of_ws {l : List Char} (h : l.all isWsCh = true) :
    wsSplitAux l [] = [] := by
  induction l with
  | nil => rfl
  | cons c rest ih =>
    simp only [List.all_cons, Bool.and_eq_true] at h
    unfold wsSplitAux
    simp [h.1, ih h.2]

/-- `str.replace(' ', '_')` distributes over concatenation. -/
theorem spaceToUnderscore_append (a b : String) :
    spaceToUnderscore (a ++ b) = spaceToUnderscore a ++ spaceToUnderscore b := by
  unfold spaceToUnderscore
  cases a with
  | mk da =>
    cases b with
    | mk db => simp [String.ext_iff]

/-!
### Concrete fixtures for witnesses and counterexamples
-/

/-- A placeholder record for `Option.getD` on `ProcessedJob`. -/
def dummyJob : ProcessedJob :=
  ⟨"", "", "", "", "", "", none, none, "", "", "", "", "", "", "", false, 0⟩

/-- A permissive configuration: no exclusions, full salary band. -/
def cfg0 : Config := ⟨⟨[], 0, 1000000, []⟩, 300⟩

/-- A configuration that excludes the keyword `intern`. -/
def cfgIntern : Config := ⟨⟨["intern"], 0, 1000000, []⟩, 300⟩

/-- A minimal acceptable raw posting (remote by title, no search term). -/
def rawRemote : RawJob := { title := some "Remote Engineer" }

/-- The processed form of `rawRemote` under `cfg0`. -/
def jobRemote : ProcessedJob := (process_single_job cfg0 "T0" rawRemote).getD dummyJob

/-- A raw posting whose search term is nonempty whitespace. -/
def rawWsTerm : RawJob := { title := some "Remote Dev", search_term := some " " }

/-- A raw posting whose URL has a bracket-mismatched authority, on which
`urlparse` raises (`ValueError("Invalid IPv6 URL")`). -/
def rawBadUrl : RawJob := { title := some "Remote Dev", url := some "http://[" }

/-- Field characterization of a successfully processed job: the salary
bounds come from `_parse_salary` on cleaned salary + description, and the
relevance score is the value returned by `_calculate_relevance`. -/
theorem process_single_job_fields {cfg : Config} {now : String} {raw : RawJob}
    {j : ProcessedJob} (h : process_single_job cfg now raw = some j) :
    j.salary_min = (parse_salary (clean_text (raw.salary.getD "") ++ " " ++ jobDescription raw)).1 ∧
    j.salary_max = (parse_salary (clean_text (raw.salary.getD "") ++ " " ++ jobDescription raw)).2 ∧
    ∃ s, calculate_relevance raw (clean_text (raw.title.getD "")) (jobDescription raw) = some s ∧
      j.relevance_score = s := by
  unfold process_single_job at h
  split at h
  · exact Option.noConfusion h
  · split at h
    · exact Option.noConfusion h
    · next s heq =>
      injection h with h
      subst h
      exact ⟨rfl, rfl, s, heq, rfl⟩

/-!
### C1 — relevance score when the search term is absent or empty
-/

/-- C1 claims the score is 0 for an absent search term; the source's
`_calculate_relevance` returns 0.5 on that branch.  Concretely, processing a
posting with no `search_term` yields a ProcessedJob whose relevance score is
0.5, not 0. -/
theorem c1_counterexample :
    (process_single_job cfg0 "T0" rawRemote).map (fun j => j.relevance_score) =
      some (1 / 2) ∧ ((1 : ℚ) / 2) ≠ 0 := by
  constructor
  · rfl
  · norm_num

/-- C1 amended: for every raw posting whose `search_term` field is absent or
empty, the relevance score of the resulting ProcessedJob is 0.5 (the
source's early-return value), not 0. -/
theorem c1_amended (cfg : Config) (now : String) (raw : RawJob) (j : ProcessedJob)
    (hterm : raw.search_term = none ∨ raw.search_term = some "")
    (h : process_single_job cfg now raw = some j) :
    j.relevance_score = 1 / 2 := by
  have hempty : raw.search_term.getD "" = "" := by
    rcases hterm with h' | h' <;> rw [h'] <;> rfl
  obtain ⟨-, -, s, hs, hjs⟩ := process_single_job_fields h
  rw [calculate_relevance_of_empty_term raw _ _ hempty] at hs
  injection hs with hs
  rw [hjs, ← hs]

/-- Witness for C1 amended at a concrete posting with no search term. -/
theorem c1_amended_witness : jobRemote.relevance_score = 1 / 2 :=
  c1_amended cfg0 "T0" rawRemote jobRemote (Or.inl rfl) rfl

/-!
### C2 — salary band validity and the missing ordering guarantee
-/

/-- C2 claims `salary_min <= salary_max` for every successful parse; the
source validates each endpoint against [10000, 1000000] but never orders
them.  The descending range text `$150,000 - $100,000` parses with
`salary_min = 150000 > salary_max = 100000`. -/
theorem c2_counterexample :
    parse_salary "$150,000 - $100,000" = (some 150000, some 100000) ∧
      ¬((150000 : Int) ≤ 100000) := by
  constructor
  · rfl
  · norm_num

/-- C2 amended: for every input text on which salary parsing succeeds, both
returned values lie in the band [10000, 1000000]; the ordering
`salary_min <= salary_max` is not guaranteed. -/
theorem c2_amended (text : String) (a b : Int)
    (h : parse_salary text = (some a, some b)) :
    (10000 ≤ a ∧ a ≤ 1000000) ∧ (10000 ≤ b ∧ b ≤ 1000000) := by
  rcases parse_salary_shape text with hn | ⟨a', b', heq, hband⟩
  · rw [hn] at h
    exact Option.noConfusion (congrArg Prod.fst h)
  · rw [heq] at h
    injection h with h1 h2
    injection h1 with h1
    injection h2 with h2
    subst h1
    subst h2
    exact hband

/-- Witness for C2 amended at a concrete ascending range. -/
theorem c2_amended_witness :
    (10000 ≤ (120000 : Int) ∧ (120000 : Int) ≤ 1000000) ∧
      (10000 ≤ (150000 : Int) ∧ (150000 : Int) ≤ 1000000) :=
  c2_amended "$120,000 - $150,000" 120000 150000 (by rfl)

/-!
### C5 — batch processing never fails; missing optional fields are safe
-/

/-- C5: the batch entry point is total and only ever drops records — its
output is never longer than its input; a record whose per-record processing
raises (`none`) is skipped and the batch continues unchanged on the rest;
and missing optional fields are never themselves a per-record failure: the
two raising operations (`urlparse` on a malformed present URL, the
relevance division on a whitespace-only present search term) both need a
*present* pathological field, so a record with `search_term` and `url`
absent — every other field present or missing arbitrarily — always
processes successfully (absent fields default to empty values). -/
theorem c5_batch_total :
    (∀ (cfg : Config) (now : String) (seen : List String) (raws : List RawJob),
      (process_jobs cfg now seen raws).1.length ≤ raws.length) ∧
    (∀ (cfg : Config) (now : String) (seen : List String) (raw : RawJob) (rest : List RawJob),
      process_single_job cfg now raw = none →
      process_jobs cfg now seen (raw :: rest) = process_jobs cfg now seen rest) ∧
    (∀ (cfg : Config) (now : String) (raw : RawJob),
      raw.search_term = none → raw.url = none →
      (process_single_job cfg now raw).isSome = true) := by
  refine ⟨?_, ?_, ?_⟩
  · intro cfg now seen raws
    induction raws generalizing seen with
    | nil => simp [process_jobs]
    | cons raw rest ih =>
      rw [process_jobs]
      cases hpsj : process_single_job cfg now raw with
      | none => exact le_trans (ih seen) (by simp)
      | some job =>
        by_cases hinc : should_include_job cfg job
        · by_cases hseen : job.id ∈ seen
          · simp only [hinc, if_true, hseen, if_true]
            exact le_trans (ih seen) (by simp)
          · simp only [hinc, if_true, hseen, if_false]
            simpa using ih (job.id :: seen)
        · simp only [hinc, if_false]
          exact le_trans (ih seen) (by simp)
  · intro cfg now seen raw rest hfail
    rw [process_jobs, hfail]
  · intro cfg now raw hterm hurl
    have hempty : raw.search_term.getD "" = "" := by rw [hterm]; rfl
    rw [process_single_job, hurl]
    rw [Option.getD_none, generate_job_id, if_neg (fun hab => hab rfl)]
    rw [calculate_relevance_of_empty_term raw _ _ hempty]
    rfl

/-- Witness for C5: a posting with only a title processes successfully, and
a posting whose present URL makes `urlparse` raise is skipped by the batch
(which continues as if the record were not there). -/
theorem c5_batch_total_witness :
    (process_single_job cfg0 "T0" rawRemote).isSome = true ∧
      process_jobs cfg0 "T0" [] [rawBadUrl] = process_jobs cfg0 "T0" [] [] :=
  ⟨c5_batch_total.2.2 cfg0 "T0" rawRemote rfl rfl,
    c5_batch_total.2.1 cfg0 "T0" [] rawBadUrl [] (by rfl)⟩

/-!
### C7 — the remote verdict
-/

/-- C7: the remote verdict is true iff some positive indicator occurs in the
concatenated lowercased text and no negative indicator does; in particular
the negative indicator `hybrid` forces a false verdict. -/
theorem c7_remote_verdict (title description location : String) :
    (verify_remote_status title description location = true ↔
      ((∃ p ∈ remote_indicators,
          strContains (lowerStr (title ++ " " ++ description ++ " " ++ location)) p = true) ∧
        ∀ q ∈ non_remote_indicators,
          strContains (lowerStr (title ++ " " ++ description ++ " " ++ location)) q = false)) ∧
    (strContains (lowerStr (title ++ " " ++ description ++ " " ++ location)) "hybrid" = true →
      verify_remote_status title description location = false) := by
  constructor
  · rw [verify_remote_status]
    simp only [Bool.and_eq_true, List.any_eq_true, Bool.not_eq_true', List.any_eq_false,
      Bool.not_eq_true]
  · intro hhy
    rw [verify_remote_status]
    have : (non_remote_indicators.any fun ind =>
        strContains (lowerStr (title ++ " " ++ description ++ " " ++ location)) ind) = true := by
      apply List.any_eq_true.mpr
      exact ⟨"hybrid", by simp [non_remote_indicators], hhy⟩
    simp [this]

/-- Witness for C7: a title containing both `hybrid` and `remote` is judged
not remote. -/
theorem c7_remote_verdict_witness : verify_remote_status "Hybrid Remote Dev" "" "" = false :=
  (c7_remote_verdict "Hybrid Remote Dev" "" "").2 (by rfl)

/-!
### C10 — a whitespace-only search term silently drops the record
-/

/-- C10: a present, nonempty, all-whitespace search term makes the word list
of `_calculate_relevance` empty, so the division by its length raises
(modelled as `none`); `_process_single_job` therefore returns no job, and
the batch loop silently drops the record from the output. -/
theorem c10_ws_term_drops (cfg : Config) (now : String) (seen : List String)
    (raw : RawJob) (st : String) (hterm : raw.search_term = some st)
    (hne : st ≠ "") (hws : st.data.all isWsCh = true) :
    (∀ t d, calculate_relevance raw t d = none) ∧
    process_single_job cfg now raw = none ∧
    process_jobs cfg now seen [raw] = ([], seen) := by
  have hlow : lowerStr st = st := by
    rw [lowerStr, map_lowerCh_of_ws hws]
  have hsplit : wsSplit st.data = [] := by
    rw [wsSplit]
    exact wsSplitAux_of_ws hws
  have hcalc : ∀ t d, calculate_relevance raw t d = none := by
    intro t d
    simp only [calculate_relevance, hterm, Option.getD_some, hlow]
    rw [if_neg hne]
    simp [hsplit]
  have hpsj : process_single_job cfg now raw = none := by
    rw [process_single_job]
    split
    · rfl
    · rw [hcalc]
  exact ⟨hcalc, hpsj, by rw [process_jobs, hpsj, process_jobs]⟩

/-- Witness for C10 at a posting whose search term is a single space. -/
theorem c10_ws_term_drops_witness :
    process_jobs cfg0 "T0" [] [rawWsTerm] = ([], []) :=
  (c10_ws_term_drops cfg0 "T0" [] rawWsTerm " " rfl (by decide) (by decide)).2.2

/-!
### C3 — seen-set lifecycle
-/

/-- The final seen-set of a batch is its initial seen-set plus exactly the
ids of the emitted jobs. -/
theorem process_jobs_seen_iff (cfg : Config) (now : String) (raws : List RawJob)
    (seen : List String) (x : String) :
    x ∈ (process_jobs cfg now seen raws).2 ↔
      x ∈ seen ∨ ∃ j, j ∈ (process_jobs cfg now seen raws).1 ∧ j.id = x := by
  induction raws generalizing seen with
  | nil => simp [process_jobs]
  | cons raw rest ih =>
    rw [process_jobs]
    cases hpsj : process_single_job cfg now raw with
    | none => simpa using ih seen
    | some job =>
      by_cases hinc : should_include_job cfg job
      · by_cases hseen : job.id ∈ seen
        · simp only [hinc, if_true, hseen, if_true]
          simpa using ih seen
        · simp only [hinc, if_true, hseen, if_false]
          rw [ih (job.id :: seen)]
          simp only [List.mem_cons]
          constructor
          · rintro (⟨h | h⟩ | ⟨j, hj, hid⟩)
            · exact Or.inr ⟨job, Or.inl rfl, h.symm⟩
            · exact Or.inl h
            · exact Or.inr ⟨j, Or.inr hj, hid⟩
          · rintro (h | ⟨j, hj | hj, hid⟩)
            · exact Or.inl (Or.inr h)
            · exact Or.inl (Or.inl (hj ▸ hid.symm))
            · exact Or.inr ⟨j, hj, hid⟩
      · simp only [hinc, if_false]
        simpa using ih seen

/-- C3: across one `process_jobs` call the seen-set grows monotonically
(fingerprints are never removed), a fingerprint is in the new seen-set
exactly when it was already seen or its job was emitted in this batch, and
consequently the fingerprint of a job rejected by the filter (whose id no
emitted job shares) is not added — an identical record resubmitted later is
evaluated fresh. -/
theorem c3_seen_set (cfg : Config) (now : String) (seen : List String)
    (raws : List RawJob) :
    (∀ x, x ∈ seen → x ∈ (process_jobs cfg now seen raws).2) ∧
    (∀ x, x ∈ (process_jobs cfg now seen raws).2 ↔
      x ∈ seen ∨ ∃ j, j ∈ (process_jobs cfg now seen raws).1 ∧ j.id = x) := by
  refine ⟨fun x hx => ?_, fun x => process_jobs_seen_iff cfg now raws seen x⟩
  exact (process_jobs_seen_iff cfg now raws seen x).mpr (Or.inl hx)

/-- Witness for C3: a pre-seeded fingerprint survives a batch. -/
theorem c3_seen_set_witness :
    "aa" ∈ (process_jobs cfg0 "T0" ["aa"] [rawWsTerm]).2 :=
  (c3_seen_set cfg0 "T0" ["aa"] [rawWsTerm]).1 "aa" (by simp)

/-!
### C4 — dedup idempotence within a batch
-/

/-- C4: for an acceptable raw posting (it survives extraction and passes the
filter), processing `[R, R]` on a fresh seen-set emits exactly one
ProcessedJob; the second occurrence is dropped as a duplicate. -/
theorem c4_dedup (cfg : Config) (now : String) (r : RawJob) (j : ProcessedJob)
    (hpsj : process_single_job cfg now r = some j)
    (hinc : should_include_job cfg j = true) :
    (process_jobs cfg now [] [r, r]).1 = [j] := by
  rw [process_jobs, hpsj]
  simp only [hinc, if_true, List.not_mem_nil, if_false]
  rw [process_jobs, hpsj]
  simp only [hinc, if_true, List.mem_singleton, if_pos rfl]
  rw [process_jobs]

/-- Witness for C4 at a concrete acceptable posting. -/
theorem c4_dedup_witness : (process_jobs cfg0 "T0" [] [rawRemote, rawRemote]).1 = [jobRemote] :=
  c4_dedup cfg0 "T0" rawRemote jobRemote rfl rfl

/-!
### C6 — fingerprint stability
-/

/-- C6: (a) two postings whose URLs parse successfully with the same netloc
and the same extractable identifier get the same id, whatever their titles
and companies; (b) with no URL, two postings whose lowercased,
space-to-underscore-normalised titles and companies agree get the same id. -/
theorem c6_fingerprint :
    (∀ (t1 c1 u1 t2 c2 u2 : String) (pu1 pu2 : UrlParts),
      u1 ≠ "" → u2 ≠ "" →
      urlparse u1 = some pu1 → urlparse u2 = some pu2 →
      pu1.netloc = pu2.netloc →
      extract_url_id pu1 ≠ none →
      extract_url_id pu1 = extract_url_id pu2 →
      generate_job_id t1 c1 u1 = generate_job_id t2 c2 u2) ∧
    (∀ (t1 c1 t2 c2 : String),
      spaceToUnderscore (lowerStr t1) = spaceToUnderscore (lowerStr t2) →
      spaceToUnderscore (lowerStr c1) = spaceToUnderscore (lowerStr c2) →
      generate_job_id t1 c1 "" = generate_job_id t2 c2 "") := by
  constructor
  · intro t1 c1 u1 t2 c2 u2 pu1 pu2 h1 h2 hp1 hp2 hnet hne hsame
    obtain ⟨i, hi⟩ : ∃ i, extract_url_id pu1 = some i := by
      cases hx : extract_url_id pu1
      · exact absurd hx hne
      · exact ⟨_, rfl⟩
    have hi2 : extract_url_id pu2 = some i := by rw [← hsame, hi]
    simp only [generate_job_id, hp1, hp2, hi, hi2, hnet]
    rw [if_pos h1, if_pos h2]
  · intro t1 c1 t2 c2 ht hc
    rw [generate_job_id, generate_job_id, if_neg (fun h => h rfl), if_neg (fun h => h rfl)]
    simp only [spaceToUnderscore_append]
    rw [ht, hc]

/-- Witness for C6: the shared path segment `/jobs/998877` on one host gives
equal ids despite different titles; equal-up-to-case titles and companies
with no URL give equal ids. -/
theorem c6_fingerprint_witness :
    generate_job_id "Dev A" "X" "https://example.com/jobs/998877?ref=1" =
      generate_job_id "Dev B" "Y" "https://example.com/jobs/998877" ∧
    generate_job_id "Software Engineer" "ACME Inc" "" =
      generate_job_id "SOFTWARE engineer" "acme INC" "" := by
  constructor
  · exact c6_fingerprint.1 "Dev A" "X" "https://example.com/jobs/998877?ref=1"
      "Dev B" "Y" "https://example.com/jobs/998877"
      ⟨"example.com", "/jobs/998877", "ref=1"⟩ ⟨"example.com", "/jobs/998877", ""⟩
      (by decide) (by decide) (by rfl) (by rfl) (by rfl) (by decide) (by rfl)
  · exact c6_fingerprint.2 "Software Engineer" "ACME Inc"
      "SOFTWARE engineer" "acme INC" (by rfl) (by rfl)

/-!
### C9 — the relevance score is always in [0, 1]
-/

/-- Every value returned by `_calculate_relevance` lies in [0, 1]: the
absent-term branch returns 0.5, and the scored branch returns
`min(score, 1.0)` of a sum of nonnegative components. -/
theorem calculate_relevance_bounds {raw : RawJob} {t d : String} {s : ℚ}
    (h : calculate_relevance raw t d = some s) : 0 ≤ s ∧ s ≤ 1 := by
  simp only [calculate_relevance] at h
  split at h
  · injection h with h
    subst h
    norm_num
  · split at h
    · exact Option.noConfusion h
    · injection h with h
      subst h
      refine ⟨le_min ?_ zero_le_one, min_le_right _ _⟩
      refine add_nonneg (add_nonneg ?_ ?_) ?_
      · split <;> norm_num
      · positivity
      · positivity

/-- C9: every successful relevance computation yields a score in [0, 1],
and every constructed ProcessedJob carries such an in-range score. -/
theorem c9_score_bound :
    (∀ (raw : RawJob) (t d : String) (s : ℚ),
      calculate_relevance raw t d = some s → 0 ≤ s ∧ s ≤ 1) ∧
    (∀ (cfg : Config) (now : String) (raw : RawJob) (j : ProcessedJob),
      process_single_job cfg now raw = some j →
      0 ≤ j.relevance_score ∧ j.relevance_score ≤ 1) := by
  refine ⟨fun raw t d s h => calculate_relevance_bounds h, fun cfg now raw j h => ?_⟩
  obtain ⟨-, -, s, hs, hjs⟩ := process_single_job_fields h
  rw [hjs]
  exact calculate_relevance_bounds hs

/-- Witness for C9 at a concrete posting. -/
theorem c9_score_bound_witness : 0 ≤ ((1 : ℚ) / 2) ∧ ((1 : ℚ) / 2) ≤ 1 :=
  c9_score_bound.1 rawRemote "t" "d" (1 / 2) (by rfl)

/-!
### C8 — filter decision order and the keyword short-circuit
-/

/-- The filter decision as §4.4 of the spec words it: ordered rules —
keyword exclusion, experience-level exclusion, salary-band overlap when
both bounds are present, remote verdict — with the first failing rule
rejecting.  (Reference definition for the refinement proof; it differs from
the source only in reading "present" where the source tests Python
truthiness of the optional bounds.) -/
def should_include_spec (cfg : Config) (job : ProcessedJob) : Bool :=
  if cfg.filters.exclude_keywords.any
      (fun kw => strContains (lowerStr (job.title ++ " " ++ job.description)) kw) then false
  else if cfg.filters.exclude_experience_levels.any
      (fun lv => strContains (lowerStr (job.title ++ " " ++ job.description)) lv) then false
  else if (match job.salary_min, job.salary_max with
    | some mn, some mx =>
      mx < cfg.filters.salary_minimum || mn > cfg.filters.salary_maximum
    | _, _ => false) then false
  else if !job.is_remote then false
  else true

/-- C8: a configured excluded keyword occurring (case-insensitively) in
title+description rejects the job no matter its salary fields or remote
status; and on every job the pipeline actually constructs, the source's
filter equals the spec's ordered rule list (so the rules apply in the fixed
order keyword, experience level, salary band, remote verdict). -/
theorem c8_filter :
    (∀ (cfg : Config) (job : ProcessedJob) (kw : String),
      kw ∈ cfg.filters.exclude_keywords →
      strContains (lowerStr (job.title ++ " " ++ job.description)) kw = true →
      should_include_job cfg job = false) ∧
    (∀ (cfg : Config) (now : String) (raw : RawJob) (job : ProcessedJob),
      process_single_job cfg now raw = some job →
      should_include_job cfg job = should_include_spec cfg job) := by
  constructor
  · intro cfg job kw hkw hsub
    have hany : (cfg.filters.exclude_keywords.any
        (fun kw => strContains (lowerStr (job.title ++ " " ++ job.description)) kw)) = true :=
      List.any_eq_true.mpr ⟨kw, hkw, hsub⟩
    simp [should_include_job, hany]
  · intro cfg now raw job h
    obtain ⟨hmin, hmax, -⟩ := process_single_job_fields h
    by_cases hkw : (cfg.filters.exclude_keywords.any
        (fun kw => strContains (lowerStr (job.title ++ " " ++ job.description)) kw)) = true
    · simp [should_include_job, should_include_spec, hkw]
    · by_cases hlv : (cfg.filters.exclude_experience_levels.any
          (fun lv => strContains (lowerStr (job.title ++ " " ++ job.description)) lv)) = true
      · simp [should_include_job, should_include_spec, hkw, hlv]
      · rcases parse_salary_shape
            (clean_text (raw.salary.getD "") ++ " " ++ jobDescription raw) with
          hshape | ⟨a, b, hshape, ⟨ha, -⟩, hb, -⟩
        · rw [hshape] at hmin hmax
          simp [should_include_job, should_include_spec, hkw, hlv, hmin, hmax, optIntTruthy]
        · rw [hshape] at hmin hmax
          have ha0 : a ≠ 0 := by omega
          have hb0 : b ≠ 0 := by omega
          simp only [should_include_job, should_include_spec, hkw, hlv, hmin, hmax,
            optIntTruthy, Option.getD_some, Bool.false_eq_true, if_false]
          simp only [ne_eq, ha0, hb0, not_false_eq_true, decide_True, Bool.and_self, if_true]
          split
          · rfl
          · cases job.is_remote <;> rfl

/-- Witness for C8: a job whose title contains the excluded keyword
`intern` is rejected although it is remote and has an in-band salary. -/
theorem c8_filter_witness :
    should_include_job cfgIntern
      ⟨"x", "Software Engineering Intern - Remote", "c", "u", "l", "s",
        some 120000, some 150000, "", "", "", "", "", "", "", true, 1⟩ = false :=
  c8_filter.1 cfgIntern
    ⟨"x", "Software Engineering Intern - Remote", "c", "u", "l", "s",
      some 120000, some 150000, "", "", "", "", "", "", "", true, 1⟩
    "intern" (by simp [cfgIntern]) (by rfl)

end JobProcessor
